import Mathlib

/-!
Verification of the golem-workers-relay core against its specification.

The definitions below are shallow embeddings of the TypeScript sources:
machine numbers become Nat/Int/Rat, JavaScript Date.now and Math.random
become explicit parameters, and the JSON.parse runtime primitive becomes
an oracle parameter.  Each definition is named after the source symbol it
embeds.
-/

/-! ## Resilience primitives: backoff schedule (src scheduling module, computeBackoffMs)

JS source:
  const base = schedule[Math.max(0, Math.min(schedule.length - 1, attemptIndex))] ?? 0;
  const jitter = jitterMs > 0 ? Math.floor(Math.random() * jitterMs) : 0;
  return Math.max(0, Math.trunc(base) + jitter);
Delays are nonnegative integers (the runner normalizes entries with
Math.max(0, Math.trunc n)), so the schedule is a List Nat and the final
Math.max(0, _) and Math.trunc are the identity.  Math.random() is the
explicit parameter rand, a rational in [0, 1). -/
def computeBackoffMs (schedule : List Nat) (attemptIndex : Nat) (jitterMs : Nat) (rand : ℚ) : Nat :=
  let base := schedule.getD (min (schedule.length - 1) attemptIndex) 0
  let jitter := if 0 < jitterMs then (Int.floor (rand * (jitterMs : ℚ))).toNat else 0
  base + jitter

/-! ## Resilience primitives: circuit breaker (CircuitBreaker class) -/

inductive CBState where
  | closed
  | opened
  | halfOpen
deriving DecidableEq, Repr

structure CircuitBreakerOpts where
  failureThreshold : Nat
  openForMs : Nat
deriving DecidableEq, Repr

structure CircuitBreakerSt where
  state : CBState
  consecutiveFailures : Nat
  openUntilMs : Nat
deriving DecidableEq, Repr

/-- Initial breaker state: closed, zero consecutive failures. -/
def cbInit : CircuitBreakerSt := ⟨.closed, 0, 0⟩

/-- CircuitBreaker.ensureRequestAllowed: in the opened state before
openUntilMs the call throws CircuitBreakerOpenError carrying
openUntilMs - now (the constructor clamp Math.max(0, Math.trunc _) is the
identity there); at or after openUntilMs the state moves to half_open and
the call is allowed; otherwise the state is untouched. -/
def cbEnsureRequestAllowed (s : CircuitBreakerSt) (now : Nat) : Except Nat CircuitBreakerSt :=
  if s.state = .opened then
    if s.openUntilMs ≤ now then .ok { s with state := .halfOpen }
    else .error (s.openUntilMs - now)
  else .ok s

/-- CircuitBreaker.onSuccess: clear failures, close, clear the window. -/
def cbOnSuccess (_s : CircuitBreakerSt) : CircuitBreakerSt := ⟨.closed, 0, 0⟩

/-- CircuitBreaker.onFailure with the in-method normalization
threshold = max(1, trunc failureThreshold), openForMs = max(100, trunc openForMs). -/
def cbOnFailure (opts : CircuitBreakerOpts) (s : CircuitBreakerSt) (now : Nat) : CircuitBreakerSt :=
  let threshold := max 1 opts.failureThreshold
  let openFor := max 100 opts.openForMs
  if s.state = .halfOpen then
    ⟨.opened, threshold, now + openFor⟩
  else
    let f := s.consecutiveFailures + 1
    if threshold ≤ f then ⟨.opened, f, now + openFor⟩
    else ⟨s.state, f, s.openUntilMs⟩

inductive CBCallResult where
  | failFast (retryAfterMs : Nat)
  | completed
  | threw
deriving DecidableEq, Repr

/-- CircuitBreaker.execute: ensureRequestAllowed, run the body, then
onSuccess or onFailure.  now is Date.now() inside ensureRequestAllowed and
nowFail is Date.now() inside onFailure; succeeds tells whether the body
resolved.  A fail-fast rejection leaves the state untouched. -/
def cbExecute (opts : CircuitBreakerOpts) (s : CircuitBreakerSt) (now nowFail : Nat)
    (succeeds : Bool) : CBCallResult × CircuitBreakerSt :=
  match cbEnsureRequestAllowed s now with
  | .error r => (.failFast r, s)
  | .ok s1 => if succeeds then (.completed, cbOnSuccess s1) else (.threw, cbOnFailure opts s1 nowFail)

/-- A run of consecutive recorded failures at the given Date.now() values. -/
def cbIterFail (opts : CircuitBreakerOpts) : List Nat → CircuitBreakerSt → CircuitBreakerSt
  | [], s => s
  | t :: ts, s => cbIterFail opts ts (cbOnFailure opts s t)

/-! ## Bounded work queue (InMemoryTaskQueue) -/

inductive QueueErr where
  | closed
  | full (maxQueue : Nat)
deriving DecidableEq, Repr

structure QueueSt (α : Type) where
  queue : List α
  inFlight : Nat
  accepting : Bool
  concurrency : Nat
  maxQueue : Nat

/-- Constructor normalization: concurrency and maxQueue are clamped with
Math.max(1, Math.trunc _). -/
def initQueue (α : Type) (concurrency maxQueue : Nat) : QueueSt α :=
  ⟨[], 0, true, max 1 concurrency, max 1 maxQueue⟩

/-- InMemoryTaskQueue.pump: while a worker slot is free and the FIFO is
nonempty, shift the head and take a slot.  The while loop runs at most
queue.length iterations, which bounds the structural fuel. -/
def pumpAux {α : Type} : Nat → QueueSt α → QueueSt α
  | 0, s => s
  | fuel + 1, s =>
    if s.inFlight < s.concurrency ∧ 0 < s.queue.length then
      pumpAux fuel { s with queue := s.queue.tail, inFlight := s.inFlight + 1 }
    else s

def pump {α : Type} (s : QueueSt α) : QueueSt α := pumpAux s.queue.length s

/-- InMemoryTaskQueue.enqueue: QueueClosed when not accepting, QueueFull
carrying maxQueue when the FIFO is at capacity, otherwise append and pump. -/
def enqueue {α : Type} (s : QueueSt α) (item : α) : Except QueueErr (QueueSt α) :=
  if s.accepting = false then .error .closed
  else if s.maxQueue ≤ s.queue.length then .error (.full s.maxQueue)
  else .ok (pump { s with queue := s.queue ++ [item] })

def stopAccepting {α : Type} (s : QueueSt α) : QueueSt α := { s with accepting := false }

/-- The finally handler of a worker: release the slot
(inFlight = Math.max(0, inFlight - 1), which is Nat subtraction) and pump. -/
def completeOne {α : Type} (s : QueueSt α) : QueueSt α :=
  pump { s with inFlight := s.inFlight - 1 }

/-- InMemoryTaskQueue.getState: (queueLength, inFlight, accepting, maxQueue). -/
def getState {α : Type} (s : QueueSt α) : Nat × Nat × Bool × Nat :=
  (s.queue.length, s.inFlight, s.accepting, s.maxQueue)

inductive QueueStep (α : Type) where
  | enq (item : α)
  | stopAcc
  | complete
  | drainCheck

/-- One external step against the queue: a failed enqueue leaves the state
unchanged (the exception is reported to the caller), drain only observes. -/
def queueApply {α : Type} (s : QueueSt α) : QueueStep α → QueueSt α
  | .enq item =>
    match enqueue s item with
    | .ok s1 => s1
    | .error _ => s
  | .stopAcc => stopAccepting s
  | .complete => completeOne s
  | .drainCheck => s

def queueRun (α : Type) (concurrency maxQueue : Nat) (steps : List (QueueStep α)) : QueueSt α :=
  steps.foldl queueApply (initQueue α concurrency maxQueue)

/-- The QueueState invariant of the spec:
queueLength ≥ 0 ∧ inFlight ≤ concurrency ∧ queueLength ≤ maxQueue. -/
def QueueInv {α : Type} (s : QueueSt α) : Prop :=
  0 ≤ s.queue.length ∧ s.inFlight ≤ s.concurrency ∧ s.queue.length ≤ s.maxQueue

/-! Push-side mapping of the enqueue errors (startPushServer onMessage in
the daemon entry point). -/

structure PushHttpErr where
  statusCode : Nat
  code : String
  detailsMaxQueue : Option Nat
deriving DecidableEq, Repr

/-- The onMessage closure handed to startPushServer: enqueue, mapping
QueueClosedError to 503 SHUTTING_DOWN and QueueFullError to 429 QUEUE_FULL
with details.maxQueue. -/
def onMessageGlue {α : Type} (s : QueueSt α) (item : α) : QueueSt α × Option PushHttpErr :=
  match enqueue s item with
  | .ok s1 => (s1, none)
  | .error .closed => (s, some ⟨503, "SHUTTING_DOWN", none⟩)
  | .error (.full mq) => (s, some ⟨429, "QUEUE_FULL", some mq⟩)

/-! ## Helper lemmas -/

theorem pumpAux_inFlight_le {α : Type} (c : Nat) :
    ∀ (fuel : Nat) (s : QueueSt α), s.concurrency = c → s.inFlight ≤ c →
      (pumpAux fuel s).inFlight ≤ c := by
  intro fuel
  induction fuel with
  | zero => intro s _ hle; exact hle
  | succ n ih =>
    intro s hc hle
    rw [pumpAux]
    by_cases hcond : s.inFlight < s.concurrency ∧ 0 < s.queue.length
    · simp only [hcond, if_true]
      exact ih _ hc (by have := hcond.1; show s.inFlight + 1 ≤ c; omega)
    · simp only [hcond, if_false]
      exact hle

theorem pumpAux_shape {α : Type} :
    ∀ (fuel : Nat) (s : QueueSt α),
      (pumpAux fuel s).queue.length ≤ s.queue.length ∧
      (pumpAux fuel s).maxQueue = s.maxQueue ∧
      (pumpAux fuel s).accepting = s.accepting ∧
      (pumpAux fuel s).concurrency = s.concurrency := by
  intro fuel
  induction fuel with
  | zero => intro s; exact ⟨Nat.le_refl _, rfl, rfl, rfl⟩
  | succ n ih =>
    intro s
    rw [pumpAux]
    by_cases hcond : s.inFlight < s.concurrency ∧ 0 < s.queue.length
    · simp only [hcond, if_true]
      have h := ih { s with queue := s.queue.tail, inFlight := s.inFlight + 1 }
      refine ⟨?_, h.2.1, h.2.2.1, h.2.2.2⟩
      refine le_trans h.1 ?_
      show s.queue.tail.length ≤ s.queue.length
      simp [List.length_tail]
    · simp [hcond]

theorem pump_inv_carry {α : Type} (s : QueueSt α)
    (h2 : s.inFlight ≤ s.concurrency) (h3 : s.queue.length ≤ s.maxQueue) :
    QueueInv (pump s) := by
  refine ⟨Nat.zero_le _, ?_, ?_⟩
  · show (pumpAux s.queue.length s).inFlight ≤ (pumpAux s.queue.length s).concurrency
    rw [(pumpAux_shape (α := α) s.queue.length s).2.2.2]
    exact pumpAux_inFlight_le s.concurrency _ _ rfl h2
  · show (pumpAux s.queue.length s).queue.length ≤ (pumpAux s.queue.length s).maxQueue
    have h := pumpAux_shape (α := α) s.queue.length s
    rw [h.2.1]
    exact le_trans h.1 h3

theorem queueApply_inv {α : Type} (s : QueueSt α) (st : QueueStep α)
    (h : QueueInv s) : QueueInv (queueApply s st) := by
  obtain ⟨-, h2, h3⟩ := h
  cases st with
  | enq item =>
    simp only [queueApply, enqueue]
    by_cases hacc : s.accepting = false
    · simp only [hacc, if_true]
      exact ⟨Nat.zero_le _, h2, h3⟩
    · simp only [hacc, if_false]
      by_cases hfull : s.maxQueue ≤ s.queue.length
      · simp only [hfull, if_true]
        exact ⟨Nat.zero_le _, h2, h3⟩
      · simp only [hfull, if_false]
        have hlen : (s.queue ++ [item]).length ≤ s.maxQueue := by
          rw [List.length_append]
          simp only [List.length_cons, List.length_nil]
          omega
        exact pump_inv_carry _ h2 hlen
  | stopAcc => exact ⟨Nat.zero_le _, h2, h3⟩
  | complete =>
    exact pump_inv_carry _ (le_trans (Nat.sub_le _ _) h2) h3
  | drainCheck => exact ⟨Nat.zero_le _, h2, h3⟩

theorem cbIterFail_append (opts : CircuitBreakerOpts) (a b : List Nat) (s : CircuitBreakerSt) :
    cbIterFail opts (a ++ b) s = cbIterFail opts b (cbIterFail opts a s) := by
  induction a generalizing s with
  | nil => rfl
  | cons t ts ih =>
    simp only [List.cons_append, cbIterFail]
    exact ih _

theorem cbIterFail_closed_count (opts : CircuitBreakerOpts) :
    ∀ (ts : List Nat) (n u : Nat), n + ts.length < max 1 opts.failureThreshold →
      cbIterFail opts ts ⟨.closed, n, u⟩ = ⟨.closed, n + ts.length, u⟩ := by
  intro ts
  induction ts with
  | nil => intro n u _; simp [cbIterFail]
  | cons t ts ih =>
    intro n u hlt
    simp only [List.length_cons] at hlt
    have hth : ¬ (max 1 opts.failureThreshold ≤ n + 1) := by omega
    simp only [cbIterFail, cbOnFailure, reduceCtorEq, if_false, hth, ite_false]
    rw [ih (n + 1) u (by omega)]
    congr 1
    simp only [List.length_cons]
    omega

/-! ## Claim C6: backoff delay decomposition -/

/-- C6 counterexample: at jitterMs = 0 the computed delay is the base delay
alone, and no jitter value lies in the empty half-open interval from 0 to 0,
so the delay cannot decompose as the claim demands for every jitter bound. -/
theorem c6_counterexample :
    computeBackoffMs [100] 0 0 0 = 100 ∧
    ¬ ∃ j : Nat, j < 0 ∧ computeBackoffMs [100] 0 0 0 = 100 + j := by
  refine ⟨rfl, ?_⟩
  rintro ⟨j, hj, -⟩
  exact Nat.not_lt_zero j hj

/-- C6 (amended): for a nonempty schedule, any attempt index, and rand in
[0, 1), the computed delay is baseDelayMs[min(i, k-1)] plus a jitter value
in the half-open interval from 0 to jitterMs whenever jitterMs > 0, and is
exactly the base delay when jitterMs = 0. -/
theorem c6_backoff_delay (schedule : List Nat) (i jitterMs : Nat) (r : ℚ)
    (hne : schedule ≠ []) (hr0 : 0 ≤ r) (hr1 : r < 1) :
    (0 < jitterMs → ∃ j : Nat, j < jitterMs ∧
        computeBackoffMs schedule i jitterMs r
          = schedule.getD (min i (schedule.length - 1)) 0 + j) ∧
    (jitterMs = 0 → computeBackoffMs schedule i jitterMs r
          = schedule.getD (min i (schedule.length - 1)) 0) := by
  constructor
  · intro hj
    refine ⟨(Int.floor (r * (jitterMs : ℚ))).toNat, ?_, ?_⟩
    · have hqpos : (0 : ℚ) < (jitterMs : ℚ) := by exact_mod_cast hj
      have hprod : r * (jitterMs : ℚ) < (jitterMs : ℚ) := mul_lt_of_lt_one_left hqpos hr1
      have hfl : Int.floor (r * (jitterMs : ℚ)) < (jitterMs : ℤ) := by
        rw [Int.floor_lt]
        exact_mod_cast hprod
      omega
    · simp only [computeBackoffMs, hj, if_true]
      rw [Nat.min_comm]
  · intro hj
    subst hj
    simp only [computeBackoffMs, Nat.lt_irrefl, if_false]
    rw [Nat.min_comm]
    simp

/-- C6 witness: a concrete instantiation of the amended backoff theorem at
schedule [300, 800], attempt index 5, jitter bound 250, rand one half, and
the jitterMs = 0 degenerate case. -/
theorem c6_backoff_delay_witness :
    (∃ j : Nat, j < 250 ∧ computeBackoffMs [300, 800] 5 250 (1 / 2)
        = [300, 800].getD (min 5 ([300, 800].length - 1)) 0 + j) ∧
    computeBackoffMs [300, 800] 5 0 (1 / 2)
        = [300, 800].getD (min 5 ([300, 800].length - 1)) 0 := by
  constructor
  · exact (c6_backoff_delay [300, 800] 5 250 (1 / 2) (by decide) (by norm_num)
      (by norm_num)).1 (by decide)
  · exact (c6_backoff_delay [300, 800] 5 0 (1 / 2) (by decide) (by norm_num)
      (by norm_num)).2 rfl

/-! ## Claim C5: circuit breaker state machine -/

/-- C5: from a closed breaker with zero consecutive failures, exactly
failureThreshold consecutive recorded failures produce the opened state and
strictly fewer leave the breaker closed with the failure count equal to the
number of recorded failures; while now < openUntilMs every call fails fast
with retryAfterMs = openUntilMs - now > 0 and leaves the state (hence the
failure counter) untouched; a call at now ≥ openUntilMs moves the breaker
to half_open and is allowed; a half_open success closes the breaker with
failures cleared; and a half_open failure reopens the window. -/
theorem c5_circuit_breaker (opts : CircuitBreakerOpts) (hft : 1 ≤ opts.failureThreshold) :
    (∀ ts : List Nat, ts.length = opts.failureThreshold →
        (cbIterFail opts ts cbInit).state = .opened) ∧
    (∀ ts : List Nat, ts.length < opts.failureThreshold →
        (cbIterFail opts ts cbInit).state = .closed ∧
        (cbIterFail opts ts cbInit).consecutiveFailures = ts.length) ∧
    (∀ (s : CircuitBreakerSt) (now : Nat), s.state = .opened → now < s.openUntilMs →
        cbEnsureRequestAllowed s now = .error (s.openUntilMs - now) ∧
        0 < s.openUntilMs - now) ∧
    (∀ (s : CircuitBreakerSt) (now nowFail : Nat) (b : Bool),
        s.state = .opened → now < s.openUntilMs →
        cbExecute opts s now nowFail b = (.failFast (s.openUntilMs - now), s)) ∧
    (∀ (s : CircuitBreakerSt) (now : Nat), s.state = .opened → s.openUntilMs ≤ now →
        cbEnsureRequestAllowed s now = .ok { s with state := .halfOpen }) ∧
    (∀ (s : CircuitBreakerSt) (now nowFail : Nat), s.state = .halfOpen →
        cbExecute opts s now nowFail true = (.completed, ⟨.closed, 0, 0⟩)) ∧
    (∀ (s : CircuitBreakerSt) (now nowFail : Nat), s.state = .halfOpen →
        cbExecute opts s now nowFail false
          = (.threw, ⟨.opened, max 1 opts.failureThreshold,
              nowFail + max 100 opts.openForMs⟩)) := by
  have hmax : max 1 opts.failureThreshold = opts.failureThreshold := by omega
  refine ⟨?_, ?_, ?_, ?_, ?_, ?_, ?_⟩
  · intro ts hlen
    have hne : ts ≠ [] := by
      intro h
      rw [h] at hlen
      simp at hlen
      omega
    have hsplit : ts.dropLast ++ [ts.getLast hne] = ts := List.dropLast_append_getLast hne
    rw [← hsplit, cbIterFail_append]
    have hdrop : ts.dropLast.length = opts.failureThreshold - 1 := by
      rw [List.length_dropLast, hlen]
    have hcount := cbIterFail_closed_count opts ts.dropLast 0 0 (by omega)
    show (cbIterFail opts [ts.getLast hne] (cbIterFail opts ts.dropLast ⟨.closed, 0, 0⟩)).state
        = .opened
    rw [hcount]
    show (cbOnFailure opts ⟨.closed, 0 + ts.dropLast.length, 0⟩ (ts.getLast hne)).state = .opened
    rw [cbOnFailure]
    simp only
    rw [if_neg (by decide), if_pos (by omega)]
  · intro ts hlen
    have hcount := cbIterFail_closed_count opts ts 0 0 (by omega)
    show (cbIterFail opts ts ⟨.closed, 0, 0⟩).state = .closed ∧
      (cbIterFail opts ts ⟨.closed, 0, 0⟩).consecutiveFailures = ts.length
    rw [hcount]
    exact ⟨rfl, by simp⟩
  · intro s now hs hnow
    rw [cbEnsureRequestAllowed]
    simp only [hs, if_true]
    have : ¬ (s.openUntilMs ≤ now) := by omega
    simp only [this, if_false]
    exact ⟨by trivial, by omega⟩
  · intro s now nowFail b hs hnow
    rw [cbExecute, cbEnsureRequestAllowed]
    simp only [hs, if_true]
    have : ¬ (s.openUntilMs ≤ now) := by omega
    simp only [this, if_false]
  · intro s now hs hnow
    rw [cbEnsureRequestAllowed]
    simp only [hs, if_true, hnow, if_pos]
  · intro s now nowFail hs
    rw [cbExecute, cbEnsureRequestAllowed]
    have : ¬ (s.state = CBState.opened) := by rw [hs]; simp
    simp only [this, if_false]
    rfl
  · intro s now nowFail hs
    rw [cbExecute, cbEnsureRequestAllowed]
    have hno : ¬ (s.state = CBState.opened) := by rw [hs]; simp
    simp only [hno, if_false]
    simp only [Bool.false_eq_true, if_false, cbOnFailure, hs, if_true]

/-- C5 witness: the circuit breaker theorem instantiated at
failureThreshold 2, openForMs 500, with two recorded failures, a fail-fast
call inside the window, a probe at the window boundary, and both half_open
outcomes. -/
theorem c5_circuit_breaker_witness :
    (cbIterFail ⟨2, 500⟩ [0, 0] cbInit).state = .opened ∧
    (cbIterFail ⟨2, 500⟩ [0] cbInit).state = .closed ∧
    cbEnsureRequestAllowed ⟨.opened, 2, 100⟩ 40 = .error (100 - 40) ∧
    cbExecute ⟨2, 500⟩ ⟨.opened, 2, 100⟩ 40 41 true
      = (.failFast (100 - 40), ⟨.opened, 2, 100⟩) ∧
    cbEnsureRequestAllowed ⟨.opened, 2, 100⟩ 100 = .ok ⟨.halfOpen, 2, 100⟩ ∧
    cbExecute ⟨2, 500⟩ ⟨.halfOpen, 1, 0⟩ 5 6 true = (.completed, ⟨.closed, 0, 0⟩) ∧
    cbExecute ⟨2, 500⟩ ⟨.halfOpen, 1, 0⟩ 5 6 false
      = (.threw, ⟨.opened, max 1 2, 6 + max 100 500⟩) := by
  have h := c5_circuit_breaker ⟨2, 500⟩ (by decide)
  refine ⟨h.1 [0, 0] rfl, (h.2.1 [0] (by decide)).1, (h.2.2.1 ⟨.opened, 2, 100⟩ 40 rfl
    (by decide)).1, h.2.2.2.1 ⟨.opened, 2, 100⟩ 40 41 true rfl (by decide), ?_, ?_, ?_⟩
  · exact h.2.2.2.2.1 ⟨.opened, 2, 100⟩ 100 rfl (by decide)
  · exact h.2.2.2.2.2.1 ⟨.halfOpen, 1, 0⟩ 5 6 rfl
  · exact h.2.2.2.2.2.2 ⟨.halfOpen, 1, 0⟩ 5 6 rfl

/-! ## Claim C9: queue state invariant -/

/-- C9: for every sequence of enqueue, stopAccepting, drain and
processor-completion steps against the in-memory task queue, the state
observed at any point satisfies queueLength ≥ 0, inFlight ≤ concurrency
and queueLength ≤ maxQueue. -/
theorem c9_queue_invariant (α : Type) (concurrency maxQueue : Nat)
    (steps : List (QueueStep α)) : QueueInv (queueRun α concurrency maxQueue steps) := by
  have hgen : ∀ (l : List (QueueStep α)) (s : QueueSt α), QueueInv s →
      QueueInv (l.foldl queueApply s) := by
    intro l
    induction l with
    | nil => intro s hs; exact hs
    | cons a l ih => intro s hs; exact ih _ (queueApply_inv s a hs)
  exact hgen steps _ ⟨Nat.zero_le _, Nat.zero_le _, Nat.zero_le _⟩

/-! ## Claim C4: enqueue failure semantics and the HTTP mapping -/

/-- C4: enqueue fails with QueueClosed exactly when the queue is not
accepting; an accepting queue fails with QueueFull carrying maxQueue
exactly when queueLength ≥ maxQueue; otherwise the item is appended to the
FIFO (and the pump runs); and the push-server onMessage mapping turns
QueueClosed into HTTP 503 SHUTTING_DOWN and QueueFull into HTTP 429
QUEUE_FULL with details.maxQueue. -/
theorem c4_enqueue_semantics {α : Type} (s : QueueSt α) (item : α) :
    (enqueue s item = .error .closed ↔ s.accepting = false) ∧
    (s.accepting = true →
        (enqueue s item = .error (.full s.maxQueue) ↔ s.maxQueue ≤ s.queue.length)) ∧
    (s.accepting = true → s.queue.length < s.maxQueue →
        enqueue s item = .ok (pump { s with queue := s.queue ++ [item] })) ∧
    (s.accepting = false →
        (onMessageGlue s item).2 = some ⟨503, "SHUTTING_DOWN", none⟩) ∧
    (s.accepting = true → s.maxQueue ≤ s.queue.length →
        (onMessageGlue s item).2 = some ⟨429, "QUEUE_FULL", some s.maxQueue⟩) := by
  refine ⟨?_, ?_, ?_, ?_, ?_⟩
  · constructor
    · intro h
      by_contra hacc
      have hacc2 : s.accepting = true := by
        cases hx : s.accepting
        · exact absurd hx hacc
        · rfl
      rw [enqueue] at h
      simp only [hacc2, Bool.true_eq_false, if_false] at h
      by_cases hfull : s.maxQueue ≤ s.queue.length
      · simp only [hfull, if_true] at h
        exact absurd (Except.error.inj h) (by simp)
      · simp only [hfull, if_false] at h
        exact absurd h (by simp)
    · intro h
      rw [enqueue]
      simp [h]
  · intro hacc
    rw [enqueue]
    simp only [hacc, Bool.true_eq_false, if_false]
    by_cases hfull : s.maxQueue ≤ s.queue.length
    · simp [hfull]
    · simp [hfull]
  · intro hacc hroom
    rw [enqueue]
    simp only [hacc, Bool.true_eq_false, if_false]
    have : ¬ (s.maxQueue ≤ s.queue.length) := by omega
    simp [this]
  · intro hacc
    rw [onMessageGlue, enqueue]
    simp [hacc]
  · intro hacc hfull
    rw [onMessageGlue, enqueue]
    simp [hacc, hfull]

/-- C4 witness: the enqueue semantics and the HTTP mapping evaluated on a
closed queue, a full queue, and a queue with room. -/
theorem c4_enqueue_semantics_witness :
    enqueue (⟨[], 0, false, 1, 2⟩ : QueueSt Nat) 7 = .error .closed ∧
    (onMessageGlue (⟨[], 0, false, 1, 2⟩ : QueueSt Nat) 7).2
      = some ⟨503, "SHUTTING_DOWN", none⟩ ∧
    enqueue (⟨[5], 0, true, 1, 1⟩ : QueueSt Nat) 7 = .error (.full 1) ∧
    (onMessageGlue (⟨[5], 0, true, 1, 1⟩ : QueueSt Nat) 7).2
      = some ⟨429, "QUEUE_FULL", some 1⟩ ∧
    enqueue (⟨[], 0, true, 1, 1⟩ : QueueSt Nat) 7
      = .ok (pump ⟨[7], 0, true, 1, 1⟩) := by
  refine ⟨(c4_enqueue_semantics _ 7).1.mpr rfl,
    (c4_enqueue_semantics _ 7).2.2.2.1 rfl,
    (c4_enqueue_semantics _ 7).2.1 rfl |>.mpr (by decide),
    (c4_enqueue_semantics _ 7).2.2.2.2 rfl (by decide),
    (c4_enqueue_semantics _ 7).2.2.1 rfl (by decide)⟩

/-! ## JavaScript values and string machinery

The gateway error classifier inspects raw message text with
String.prototype helpers and regular expressions, and hands a substring to
the runtime primitive JSON.parse.  Strings are Char lists; JSON.parse is an
oracle parameter producing a JsValue. -/

inductive JsValue where
  | null
  | bool (b : Bool)
  | num (q : ℚ)
  | str (s : List Char)
  | arr (elems : List JsValue)
  | obj (fields : List (List Char × JsValue))

/-- The left brace character, written by code point to keep it out of
literal text. -/
def lbraceChar : Char := Char.ofNat 123

/-- The right brace character. -/
def rbraceChar : Char := Char.ofNat 125

/-- The double-quote character. -/
def quoteChar : Char := Char.ofNat 34

/-- Whether pat is an initial segment of l. -/
def listStartsWith : List Char → List Char → Bool
  | [], _ => true
  | _ :: _, [] => false
  | p :: ps, c :: cs => p == c && listStartsWith ps cs

/-- String.prototype.includes on character lists. -/
def containsSub : List Char → List Char → Bool
  | [], pat => listStartsWith pat []
  | c :: t, pat => listStartsWith pat (c :: t) || containsSub t pat

/-- String.prototype.indexOf for a single character. -/
def idxOfChar : List Char → Char → Option Nat
  | [], _ => none
  | c :: t, x => if c == x then some 0 else (idxOfChar t x).map (· + 1)

/-- String.prototype.lastIndexOf for a single character. -/
def lastIdxOfChar : List Char → Char → Option Nat
  | [], _ => none
  | c :: t, x =>
    match lastIdxOfChar t x with
    | some i => some (i + 1)
    | none => if c == x then some 0 else none

/-- The whitespace class of JavaScript (ASCII part plus NBSP and BOM),
used both by String.prototype.trim and by the regex class backslash-s. -/
def isJsWs (c : Char) : Bool :=
  c == ' ' || c == Char.ofNat 9 || c == Char.ofNat 10 || c == Char.ofNat 13 ||
  c == Char.ofNat 11 || c == Char.ofNat 12 || c == Char.ofNat 160 || c == Char.ofNat 65279

/-- String.prototype.trim. -/
def jsTrim (l : List Char) : List Char :=
  ((l.dropWhile isJsWs).reverse.dropWhile isJsWs).reverse

def skipWs (l : List Char) : List Char := l.dropWhile isJsWs

/-- Consume a literal at the head of the list. -/
def dropLit (l lit : List Char) : Option (List Char) :=
  if listStartsWith lit l then some (l.drop lit.length) else none

/-- Property access on a plain object (first matching key). -/
def jsGet : JsValue → List Char → Option JsValue
  | .obj fields, k => (fields.find? (fun f => f.1 == k)).map (·.2)
  | _, _ => none

/-- Whether typeof the value is the string object and the value is truthy,
which for JSON.parse output means an array or a plain object. -/
def isObjectLike : JsValue → Bool
  | .arr _ => true
  | .obj _ => true
  | _ => false

/-- Exactly three decimal digits (the regex anchored d d d). -/
def isThreeDigits (l : List Char) : Bool :=
  l.length == 3 && l.all (fun c => c.isDigit)

def digitsToNat (l : List Char) : Nat :=
  l.foldl (fun a c => a * 10 + (c.toNat - 48)) 0

/-! ## Gateway error classification (classifyRetryableGatewayError) -/

structure ParsedInjectedStreamError where
  code : Option ℚ
  status : Option (List Char)
  message : Option (List Char)

/-- The marker the upstream provider embeds before the JSON error body. -/
def injectedMarker : List Char := "JSON error injected into SSE stream".toList

/-- The error.code field: a number is taken as is; a string of exactly
three digits (after trim) is parsed with Number.parseInt; anything else is
undefined. -/
def extractUpstreamCode (errv : JsValue) : Option ℚ :=
  match jsGet errv ("code".toList) with
  | some (.num q) => some q
  | some (.str s) =>
    let t := jsTrim s
    if isThreeDigits t then some ((digitsToNat t : ℚ)) else none
  | _ => none

def extractUpstreamStr (errv : JsValue) (key : List Char) : Option (List Char) :=
  match jsGet errv key with
  | some (.str s) => some s
  | _ => none

/-- tryParseInjectedStreamJsonError: require the marker, slice from the
first left brace to the last right brace, JSON.parse the candidate, and
pull code / status / message out of the error property. -/
def tryParseInjectedStreamJsonError (jsonParse : List Char → Option JsValue)
    (text : List Char) : Option ParsedInjectedStreamError :=
  if containsSub text injectedMarker then
    match idxOfChar text lbraceChar, lastIdxOfChar text rbraceChar with
    | some s, some e =>
      if e ≤ s then none
      else
        let candidate := (text.take (e + 1)).drop s
        match jsonParse candidate with
        | none => none
        | some v =>
          if isObjectLike v then
            match jsGet v ("error".toList) with
            | some errv =>
              if isObjectLike errv then
                some ⟨extractUpstreamCode errv, extractUpstreamStr errv ("status".toList),
                  extractUpstreamStr errv ("message".toList)⟩
              else none
            | none => none
          else none
    | _, _ => none
  else none

/-- Match of the first fallback regex (status quote, optional whitespace,
colon, optional whitespace, quoted INTERNAL) anchored at the head. -/
def heurStatusAt (l : List Char) : Bool :=
  match dropLit l ("status".toList ++ [quoteChar]) with
  | none => false
  | some r1 =>
    match skipWs r1 with
    | c :: r3 =>
      c == ':' && listStartsWith ([quoteChar] ++ "INTERNAL".toList ++ [quoteChar]) (skipWs r3)
    | [] => false

/-- Match of the second fallback regex (quoted code, optional whitespace,
colon, optional whitespace, the digit 5 and two more digits) anchored at
the head. -/
def heurCodeAt (l : List Char) : Bool :=
  match dropLit l ([quoteChar] ++ "code".toList ++ [quoteChar]) with
  | none => false
  | some r1 =>
    match skipWs r1 with
    | c :: r3 =>
      c == ':' &&
        (match skipWs r3 with
        | five :: d1 :: d2 :: _ => five == '5' && d1.isDigit && d2.isDigit
        | _ => false)
    | [] => false

/-- RegExp.prototype.test: search the pattern at every position. -/
def anyPosition (p : List Char → Bool) : List Char → Bool
  | [] => p []
  | c :: t => p (c :: t) || anyPosition p t

def heurStatusInternal (l : List Char) : Bool := anyPosition heurStatusAt l

def heurCode5xx (l : List Char) : Bool := anyPosition heurCodeAt l

/-- The fallback heuristic branch and the final non-retryable fallthrough
of classifyRetryableGatewayError. -/
def heuristicStep (message : List Char) : Bool × String :=
  if heurStatusInternal message && heurCode5xx message then (true, "heuristic_internal")
  else (false, "non_retryable")

/-- classifyRetryableGatewayError: an embedded upstream code in [500, 599]
or equal to 429 is retryable, an embedded upstream status INTERNAL is
retryable, otherwise the text heuristic decides, and everything else is
non-retryable.  Returns (retryable, reason). -/
def classifyRetryableGatewayError (jsonParse : List Char → Option JsValue)
    (message : List Char) : Bool × String :=
  match tryParseInjectedStreamJsonError jsonParse message with
  | some u =>
    match u.code with
    | some c =>
      if 500 ≤ c ∧ c ≤ 599 then (true, "upstream_5xx")
      else if c = 429 then (true, "upstream_429")
      else if u.status = some ("INTERNAL".toList) then (true, "upstream_internal")
      else heuristicStep message
    | none =>
      if u.status = some ("INTERNAL".toList) then (true, "upstream_internal")
      else heuristicStep message
  | none => heuristicStep message

/-! ## Claim C7: retryability classification -/

/-- The heuristic branch is taken exactly when both fallback regexes match. -/
theorem heuristicStep_fst (message : List Char) :
    (heuristicStep message).1 = true ↔
      (heurStatusInternal message = true ∧ heurCode5xx message = true) := by
  rw [heuristicStep]
  by_cases h1 : heurStatusInternal message <;> by_cases h2 : heurCode5xx message <;>
    simp [h1, h2]

/-- C7: the classifier marks a gateway error message retryable exactly when
the embedded upstream JSON error has a numeric code in [500, 599] or equal
to 429 or a status field INTERNAL, or, failing that, when the textual
heuristic (status INTERNAL together with a quoted code 5xx) matches; all
other messages are non-retryable. -/
theorem c7_classify_retryable (jsonParse : List Char → Option JsValue) (message : List Char) :
    (classifyRetryableGatewayError jsonParse message).1 = true ↔
      ((∃ u, tryParseInjectedStreamJsonError jsonParse message = some u ∧
          ((∃ c, u.code = some c ∧ ((500 ≤ c ∧ c ≤ 599) ∨ c = 429)) ∨
            u.status = some ("INTERNAL".toList))) ∨
        (heurStatusInternal message = true ∧ heurCode5xx message = true)) := by
  cases hp : tryParseInjectedStreamJsonError jsonParse message with
  | none =>
    simp only [classifyRetryableGatewayError, hp]
    rw [heuristicStep_fst]
    constructor
    · intro h
      exact Or.inr h
    · rintro (⟨u, hu, -⟩ | h)
      · exact Option.noConfusion hu
      · exact h
  | some u =>
    simp only [classifyRetryableGatewayError, hp]
    cases hc : u.code with
    | some c =>
      simp only [hc]
      by_cases h59 : 500 ≤ c ∧ c ≤ 599
      · rw [if_pos h59]
        constructor
        · intro _
          exact Or.inl ⟨u, rfl, Or.inl ⟨c, hc, Or.inl h59⟩⟩
        · intro _
          rfl
      · rw [if_neg h59]
        by_cases h429 : c = 429
        · rw [if_pos h429]
          constructor
          · intro _
            exact Or.inl ⟨u, rfl, Or.inl ⟨c, hc, Or.inr h429⟩⟩
          · intro _
            rfl
        · rw [if_neg h429]
          by_cases hst : u.status = some ("INTERNAL".toList)
          · rw [if_pos hst]
            constructor
            · intro _
              exact Or.inl ⟨u, rfl, Or.inr hst⟩
            · intro _
              rfl
          · rw [if_neg hst, heuristicStep_fst]
            constructor
            · intro h
              exact Or.inr h
            · rintro (⟨u2, hu2, hcase⟩ | h)
              · obtain rfl : u = u2 := Option.some.inj hu2
                rcases hcase with ⟨c2, hc2, hrange⟩ | hs
                · rw [hc] at hc2
                  obtain rfl : c = c2 := Option.some.inj hc2
                  rcases hrange with hr | hr
                  · exact absurd hr h59
                  · exact absurd hr h429
                · exact absurd hs hst
              · exact h
    | none =>
      simp only [hc]
      by_cases hst : u.status = some ("INTERNAL".toList)
      · rw [if_pos hst]
        constructor
        · intro _
          exact Or.inl ⟨u, rfl, Or.inr hst⟩
        · intro _
          rfl
      · rw [if_neg hst, heuristicStep_fst]
        constructor
        · intro h
          exact Or.inr h
        · rintro (⟨u2, hu2, hcase⟩ | h)
          · obtain rfl : u = u2 := Option.some.inj hu2
            rcases hcase with ⟨c2, hc2, -⟩ | hs
            · rw [hc] at hc2
              exact Option.noConfusion hc2
            · exact absurd hs hst
          · exact h

/-! ## Inbound message schema (inboundPushMessageSchema from backend types)

The zod schema is embedded as a decidable checker on JsValue: objects keep
unknown keys, optional fields accept an absent key, min(1) on strings is a
length bound, int().nonnegative() on numbers is an integrality and sign
test. -/

def isStrMin1 (v : Option JsValue) : Bool :=
  match v with
  | some (.str s) => decide (1 ≤ s.length)
  | _ => false

/-- One media array element: a tagged audio or file attachment. -/
def mediaItemValid (v : JsValue) : Bool :=
  (match jsGet v ("type".toList) with
  | some (.str s) => s == "audio".toList || s == "file".toList
  | _ => false) &&
  isStrMin1 (jsGet v ("dataB64".toList)) &&
  isStrMin1 (jsGet v ("contentType".toList)) &&
  (match jsGet v ("fileName".toList) with
  | none => true
  | some (.str s) => decide (1 ≤ s.length)
  | _ => false)

/-- The chat variant of the task input (sessionKey, messageText, optional
media array; context is unknown and always accepted). -/
def chatInputValid (v : JsValue) : Bool :=
  isStrMin1 (jsGet v ("sessionKey".toList)) &&
  isStrMin1 (jsGet v ("messageText".toList)) &&
  (match jsGet v ("media".toList) with
  | none => true
  | some (.arr xs) => xs.all mediaItemValid
  | _ => false)

/-- The z.preprocess back-compat step: a plain object without a string
kind but with string sessionKey and messageText is spread into
a chat-tagged object.  When a non-string kind key is present the JS spread
yields an object with the same property lookups as the original, so the
original is kept. -/
def taskInputPreprocess (v : JsValue) : JsValue :=
  match v with
  | .obj fields =>
    let kindIsString := match jsGet v ("kind".toList) with
      | some (.str _) => true
      | _ => false
    let skIsString := match jsGet v ("sessionKey".toList) with
      | some (.str _) => true
      | _ => false
    let mtIsString := match jsGet v ("messageText".toList) with
      | some (.str _) => true
      | _ => false
    if kindIsString = false && skIsString && mtIsString && (jsGet v ("kind".toList)).isNone then
      .obj (fields ++ [(("kind".toList), .str ("chat".toList))])
    else v
  | _ => v

/-- The discriminated union on kind after the preprocess step. -/
def taskInputValid (v : JsValue) : Bool :=
  let w := taskInputPreprocess v
  match w with
  | .obj _ =>
    match jsGet w ("kind".toList) with
    | some (.str k) =>
      if k == "chat".toList then chatInputValid w
      else if k == "handshake".toList then isStrMin1 (jsGet w ("nonce".toList))
      else if k == "session_new".toList then true
      else false
    | _ => false
  | _ => false

/-- inboundPushMessageSchema: messageId min 1, optional nonnegative
integral sentAtMs, and a valid task input. -/
def inboundPushMessageValid (v : JsValue) : Bool :=
  match v with
  | .obj _ =>
    isStrMin1 (jsGet v ("messageId".toList)) &&
    (match jsGet v ("sentAtMs".toList) with
    | none => true
    | some (.num q) => decide ((0 : ℚ) ≤ q) && q.den == 1
    | _ => false) &&
    (match jsGet v ("input".toList) with
    | some inp => taskInputValid inp
    | none => false)
  | _ => false

/-! ## Push server (startPushServer handle) -/

structure PushCfg where
  path : String
  healthPath : String
  readinessPath : String
  relayToken : String
  rateLimitPerSecond : Nat
  maxConcurrentRequests : Nat

structure PushSt where
  rateWindowSec : Nat
  rateWindowCount : Nat
  activeRequests : Nat
deriving DecidableEq, Repr

/-- Push path normalization at startPushServer entry. -/
def pushPathNorm (cfg : PushCfg) : String :=
  if listStartsWith ("/".toList) cfg.path.toList then cfg.path else "/" ++ cfg.path

def healthPathNorm (cfg : PushCfg) : String :=
  if jsTrim cfg.healthPath.toList = [] then "/health" else String.mk (jsTrim cfg.healthPath.toList)

def readinessPathNorm (cfg : PushCfg) : String :=
  if jsTrim cfg.readinessPath.toList = [] then "/ready"
  else String.mk (jsTrim cfg.readinessPath.toList)

/-- isRateLimited: reset the window when the wall-clock second moved, then
increment the counter, then compare against the limit (normalized with
Math.max(1, Math.trunc _)).  Returns (limited, updated state). -/
def isRateLimited (cfg : PushCfg) (st : PushSt) (nowSec : Nat) : Bool × PushSt :=
  let st1 := if nowSec ≠ st.rateWindowSec then
    { st with rateWindowSec := nowSec, rateWindowCount := 0 } else st
  let st2 := { st1 with rateWindowCount := st1.rateWindowCount + 1 }
  (decide (max 1 cfg.rateLimitPerSecond < st2.rateWindowCount), st2)

inductive BodyRead where
  | failed
  | ok (raw : List Char)

structure PushReq where
  method : String
  pathname : String
  bearer : Option String
  nowSec : Nat
  body : BodyRead

inductive RespDetails where
  | noDetails
  | validationFieldErrors
  | maxQueueDetail (n : Nat)
deriving DecidableEq, Repr

structure PushResp where
  status : Nat
  code : Option String
  details : RespDetails
deriving DecidableEq, Repr

inductive OnMsgOutcome where
  | accepted
  | httpErr (e : PushHttpErr)
  | exn

/-- The body-to-JSON step of the handler: an all-whitespace body becomes
null, otherwise JSON.parse runs and may throw (none). -/
def jsParseStep (jsonParse : List Char → Option JsValue) (raw : List Char) : Option JsValue :=
  if jsTrim raw = [] then some JsValue.null else jsonParse raw

/-- The post-rate-limit tail of the handler: concurrency cap, body read,
JSON parse, schema validation, then onMessage with the error mapping of
PushServerHttpError and the generic 500 fallback.  Returns the response
and the messages handed to onMessage; the server state is unchanged by
this part (activeRequests is incremented and decremented again in the
finally handler). -/
def pushRespBody (cfg : PushCfg) (jsonParse : List Char → Option JsValue)
    (onMsg : JsValue → OnMsgOutcome) (active : Nat) (body : BodyRead) :
    PushResp × List JsValue :=
  if max 1 cfg.maxConcurrentRequests ≤ active then (⟨503, some "BUSY", .noDetails⟩, [])
  else
    match body with
    | .failed => (⟨500, some "PUSH_SERVER_ERROR", .noDetails⟩, [])
    | .ok raw =>
      match jsParseStep jsonParse raw with
      | none => (⟨500, some "PUSH_SERVER_ERROR", .noDetails⟩, [])
      | some v =>
        if inboundPushMessageValid v = false then
          (⟨400, some "VALIDATION_ERROR", .validationFieldErrors⟩, [])
        else
          match onMsg v with
          | .accepted => (⟨200, none, .noDetails⟩, [v])
          | .httpErr e =>
            (⟨e.statusCode, some e.code,
              match e.detailsMaxQueue with
              | some n => .maxQueueDetail n
              | none => .noDetails⟩, [v])
          | .exn => (⟨500, some "PUSH_SERVER_ERROR", .noDetails⟩, [v])

/-- The handle closure of startPushServer: health probes, method and path
match, bearer compare, rate limit, then the body tail.  The result is the
next server state, the response, and the messages handed to onMessage. -/
def pushHandle (cfg : PushCfg) (jsonParse : List Char → Option JsValue)
    (getHealth : Bool × Bool) (onMsg : JsValue → OnMsgOutcome)
    (st : PushSt) (req : PushReq) : PushSt × PushResp × List JsValue :=
  if req.method == "GET" && req.pathname == healthPathNorm cfg then
    (st, ⟨if getHealth.1 then 200 else 503, none, .noDetails⟩, [])
  else if req.method == "GET" && req.pathname == readinessPathNorm cfg then
    (st, ⟨if getHealth.2 then 200 else 503, none, .noDetails⟩, [])
  else if !(req.method == "POST" && req.pathname == pushPathNorm cfg) then
    (st, ⟨404, some "NOT_FOUND", .noDetails⟩, [])
  else
    match req.bearer with
    | none => (st, ⟨401, some "UNAUTHORIZED", .noDetails⟩, [])
    | some tok =>
      if tok ≠ cfg.relayToken then (st, ⟨401, some "UNAUTHORIZED", .noDetails⟩, [])
      else
        let rl := isRateLimited cfg st req.nowSec
        if rl.1 then (rl.2, ⟨429, some "RATE_LIMITED", .noDetails⟩, [])
        else
          let tail := pushRespBody cfg jsonParse onMsg rl.2.activeRequests req.body
          (rl.2, tail.1, tail.2)

/-- An authenticated POST to the push path always reaches the rate-limit
step; the handler result is determined by isRateLimited and the body tail. -/
theorem pushHandle_authed (cfg : PushCfg) (jsonParse : List Char → Option JsValue)
    (getHealth : Bool × Bool) (onMsg : JsValue → OnMsgOutcome) (st : PushSt) (req : PushReq)
    (hm : req.method = "POST") (hp : req.pathname = pushPathNorm cfg)
    (hb : req.bearer = some cfg.relayToken) :
    pushHandle cfg jsonParse getHealth onMsg st req =
      (if (isRateLimited cfg st req.nowSec).1 then
        ((isRateLimited cfg st req.nowSec).2, ⟨429, some "RATE_LIMITED", .noDetails⟩, [])
      else
        ((isRateLimited cfg st req.nowSec).2,
          (pushRespBody cfg jsonParse onMsg
            (isRateLimited cfg st req.nowSec).2.activeRequests req.body).1,
          (pushRespBody cfg jsonParse onMsg
            (isRateLimited cfg st req.nowSec).2.activeRequests req.body).2)) := by
  rw [pushHandle, hm, hp, hb]
  simp

/-- What isRateLimited does to the window state: the counter of the
current wall-clock second is incremented unconditionally, the window
second is set to now, and activeRequests is untouched. -/
theorem isRateLimited_effect (cfg : PushCfg) (st : PushSt) (n : Nat) :
    (isRateLimited cfg st n).2.rateWindowCount
        = (if n = st.rateWindowSec then st.rateWindowCount else 0) + 1 ∧
    (isRateLimited cfg st n).2.rateWindowSec = n ∧
    (isRateLimited cfg st n).2.activeRequests = st.activeRequests := by
  rw [isRateLimited]
  by_cases hn : n = st.rateWindowSec
  · have hne2 : ¬ (n ≠ st.rateWindowSec) := by simpa using hn
    simp [hne2, hn]
  · simp [hn]

/-! ## Claim C10: rate-limit budget is consumed before later checks -/

/-- C10: every POST to the push path that passes the bearer check
increments the per-second rate-limit window counter (resetting the window
when the wall-clock second moved), whatever the later concurrency, body,
parse, validation and enqueue checks decide, so requests rejected later
still consume budget for that second. -/
theorem c10_rate_budget (cfg : PushCfg) (jsonParse : List Char → Option JsValue)
    (getHealth : Bool × Bool) (onMsg : JsValue → OnMsgOutcome) (st : PushSt) (req : PushReq)
    (hm : req.method = "POST") (hp : req.pathname = pushPathNorm cfg)
    (hb : req.bearer = some cfg.relayToken) :
    (pushHandle cfg jsonParse getHealth onMsg st req).1.rateWindowCount
        = (if req.nowSec = st.rateWindowSec then st.rateWindowCount else 0) + 1 ∧
    (pushHandle cfg jsonParse getHealth onMsg st req).1.rateWindowSec = req.nowSec := by
  rw [pushHandle_authed cfg jsonParse getHealth onMsg st req hm hp hb]
  have h := isRateLimited_effect cfg st req.nowSec
  cases hrl : (isRateLimited cfg st req.nowSec).1 <;>
    simp only [hrl, if_true, if_false, Bool.false_eq_true] <;>
    exact ⟨h.1, h.2.1⟩

/-- C10 witness: a POST with a valid bearer whose body is rejected by
JSON.parse (a 500 response) still bumps the window counter from 3 to 4. -/
theorem c10_rate_budget_witness :
    (pushHandle ⟨"/relay/messages", "/health", "/ready", "t", 100, 100⟩ (fun _ => none)
        (true, true) (fun _ => .accepted) ⟨5, 3, 0⟩
        ⟨"POST", "/relay/messages", some "t", 5, .ok ("x".toList)⟩).1.rateWindowCount
      = (if 5 = (⟨5, 3, 0⟩ : PushSt).rateWindowSec then (⟨5, 3, 0⟩ : PushSt).rateWindowCount
          else 0) + 1 ∧
    (pushHandle ⟨"/relay/messages", "/health", "/ready", "t", 100, 100⟩ (fun _ => none)
        (true, true) (fun _ => .accepted) ⟨5, 3, 0⟩
        ⟨"POST", "/relay/messages", some "t", 5, .ok ("x".toList)⟩).1.rateWindowSec = 5 :=
  c10_rate_budget ⟨"/relay/messages", "/health", "/ready", "t", 100, 100⟩ (fun _ => none)
    (true, true) (fun _ => .accepted) ⟨5, 3, 0⟩
    ⟨"POST", "/relay/messages", some "t", 5, .ok ("x".toList)⟩ rfl (by decide) rfl

/-! ## Claim C3: body validation responses -/

/-- C3 counterexample: an authenticated, non-rate-limited POST whose body
is not valid JSON (the JSON.parse oracle rejects it) is answered 500
PUSH_SERVER_ERROR, not 400 VALIDATION_ERROR: the parse exception falls
into the generic catch of the handler. -/
theorem c3_counterexample :
    (pushHandle ⟨"/relay/messages", "/health", "/ready", "t", 100, 100⟩ (fun _ => none)
        (true, true) (fun _ => .accepted) ⟨5, 0, 0⟩
        ⟨"POST", "/relay/messages", some "t", 5, .ok ("not json".toList)⟩).2.1
      = ⟨500, some "PUSH_SERVER_ERROR", .noDetails⟩ ∧
    ¬ ((pushHandle ⟨"/relay/messages", "/health", "/ready", "t", 100, 100⟩ (fun _ => none)
        (true, true) (fun _ => .accepted) ⟨5, 0, 0⟩
        ⟨"POST", "/relay/messages", some "t", 5, .ok ("not json".toList)⟩).2.1.status = 400) ∧
    (pushHandle ⟨"/relay/messages", "/health", "/ready", "t", 100, 100⟩ (fun _ => none)
        (true, true) (fun _ => .accepted) ⟨5, 0, 0⟩
        ⟨"POST", "/relay/messages", some "t", 5, .ok ("not json".toList)⟩).2.2 = [] := by
  refine ⟨by decide, by decide, rfl⟩

/-- C3 (amended): for an authenticated, non-rate-limited POST to the push
path below the concurrency cap, a body that parses as JSON (an
all-whitespace body counting as null) but fails the InboundMessage schema
is answered 400 VALIDATION_ERROR with field details and is not handed to
onMessage; a body that is not valid JSON is answered 500 PUSH_SERVER_ERROR
and is likewise not handed to onMessage. -/
theorem c3_validation (cfg : PushCfg) (jsonParse : List Char → Option JsValue)
    (getHealth : Bool × Bool) (onMsg : JsValue → OnMsgOutcome) (st : PushSt) (req : PushReq)
    (raw : List Char)
    (hm : req.method = "POST") (hp : req.pathname = pushPathNorm cfg)
    (hb : req.bearer = some cfg.relayToken)
    (hbody : req.body = .ok raw)
    (hlim : (isRateLimited cfg st req.nowSec).1 = false)
    (hcap : st.activeRequests < max 1 cfg.maxConcurrentRequests) :
    (∀ v, jsParseStep jsonParse raw = some v → inboundPushMessageValid v = false →
        (pushHandle cfg jsonParse getHealth onMsg st req).2.1
            = ⟨400, some "VALIDATION_ERROR", .validationFieldErrors⟩ ∧
        (pushHandle cfg jsonParse getHealth onMsg st req).2.2 = []) ∧
    (jsParseStep jsonParse raw = none →
        (pushHandle cfg jsonParse getHealth onMsg st req).2.1
            = ⟨500, some "PUSH_SERVER_ERROR", .noDetails⟩ ∧
        (pushHandle cfg jsonParse getHealth onMsg st req).2.2 = []) := by
  rw [pushHandle_authed cfg jsonParse getHealth onMsg st req hm hp hb]
  simp only [hlim, Bool.false_eq_true, if_false]
  rw [pushRespBody.eq_def, (isRateLimited_effect cfg st req.nowSec).2.2, hbody]
  have hcap2 : ¬ (max 1 cfg.maxConcurrentRequests ≤ st.activeRequests) := by omega
  simp only [hcap2, if_false]
  constructor
  · intro v hv hinv
    simp only [hv, hinv, if_pos rfl]
    exact ⟨by trivial, by trivial⟩
  · intro hn
    simp only [hn]
    exact ⟨by trivial, by trivial⟩

/-- C3 witness: the amended validation theorem applied to a schema-invalid
JSON body (an empty object) and to a body the JSON.parse oracle rejects. -/
theorem c3_validation_witness :
    ((pushHandle ⟨"/relay/messages", "/health", "/ready", "t", 100, 100⟩
        (fun _ => some (.obj [])) (true, true) (fun _ => .accepted) ⟨5, 0, 0⟩
        ⟨"POST", "/relay/messages", some "t", 5, .ok ("z".toList)⟩).2.1
      = ⟨400, some "VALIDATION_ERROR", .validationFieldErrors⟩ ∧
    (pushHandle ⟨"/relay/messages", "/health", "/ready", "t", 100, 100⟩
        (fun _ => some (.obj [])) (true, true) (fun _ => .accepted) ⟨5, 0, 0⟩
        ⟨"POST", "/relay/messages", some "t", 5, .ok ("z".toList)⟩).2.2 = []) ∧
    ((pushHandle ⟨"/relay/messages", "/health", "/ready", "t", 100, 100⟩
        (fun _ => none) (true, true) (fun _ => .accepted) ⟨5, 0, 0⟩
        ⟨"POST", "/relay/messages", some "t", 5, .ok ("z".toList)⟩).2.1
      = ⟨500, some "PUSH_SERVER_ERROR", .noDetails⟩ ∧
    (pushHandle ⟨"/relay/messages", "/health", "/ready", "t", 100, 100⟩
        (fun _ => none) (true, true) (fun _ => .accepted) ⟨5, 0, 0⟩
        ⟨"POST", "/relay/messages", some "t", 5, .ok ("z".toList)⟩).2.2 = []) := by
  constructor
  · exact (c3_validation ⟨"/relay/messages", "/health", "/ready", "t", 100, 100⟩
      (fun _ => some (.obj [])) (true, true) (fun _ => .accepted) ⟨5, 0, 0⟩
      ⟨"POST", "/relay/messages", some "t", 5, .ok ("z".toList)⟩ ("z".toList)
      rfl (by decide) rfl rfl (by decide) (by decide)).1 (.obj []) rfl rfl
  · exact (c3_validation ⟨"/relay/messages", "/health", "/ready", "t", 100, 100⟩
      (fun _ => none) (true, true) (fun _ => .accepted) ⟨5, 0, 0⟩
      ⟨"POST", "/relay/messages", some "t", 5, .ok ("z".toList)⟩ ("z".toList)
      rfl (by decide) rfl rfl (by decide) (by decide)).2 rfl

/-! ## Gateway client (GatewayClient): stop and the socket close handler

The mutable fields of the class become a record; timer handles become
booleans (timer scheduled or not); the hello payload is abstracted to an
Option tag.  Each rejection of a Pending is emitted as a trace event that
snapshots isReady() (hello present) at the moment the rejection runs. -/

structure GwSt where
  ws : Bool
  hello : Option Nat
  pending : List String
  reconnectTimer : Bool
  tickTimer : Bool
  stopped : Bool
  backoffMs : Nat
  readyPromise : Bool

inductive GwEv where
  | rejectPending (id : String) (readyAtCall : Bool) (reason : String)
  | rejectReady (reason : String)

/-- GatewayClient.flushPending: reject every pending with the given error
and clear the map.  Each emitted rejection records isReady() as observed
when the rejector runs. -/
def flushPending (s : GwSt) (reason : String) : GwSt × List GwEv :=
  ({ s with pending := [] },
    s.pending.map (fun id => GwEv.rejectPending id s.hello.isSome reason))

/-- GatewayClient.stop: set stopped, clear the reconnect timer and the
tick watchdog, close and drop the socket, then flushPending with the
terminal error.  The hello field is not touched here; the socket close
event that follows asynchronously clears it. -/
def gwStop (s : GwSt) : GwSt × List GwEv :=
  flushPending
    { s with stopped := true, reconnectTimer := false, tickTimer := false, ws := false }
    "gateway client stopped"

/-- GatewayClient.scheduleReconnect: skipped when stopped or already
scheduled; otherwise arm the timer and grow the backoff
(min(30000, floor(backoff * 1.5))). -/
def scheduleReconnect (s : GwSt) : GwSt :=
  if s.stopped then s
  else if s.reconnectTimer then s
  else { s with reconnectTimer := true, backoffMs := min 30000 (s.backoffMs * 3 / 2) }

/-- The close listener of GatewayClient.open: drop the socket, clear
hello, reject a pending start() promise if any, flushPending with the
close error, then schedule the reconnect. -/
def gwCloseHandler (s : GwSt) (reason : String) : GwSt × List GwEv :=
  let s1 := { s with ws := false, hello := none }
  let readyEvs := if s1.readyPromise then [GwEv.rejectReady reason] else []
  let s2 := { s1 with readyPromise := false }
  let fp := flushPending s2 reason
  (scheduleReconnect fp.1, readyEvs ++ fp.2)

theorem scheduleReconnect_hello (s : GwSt) : (scheduleReconnect s).hello = s.hello := by
  rw [scheduleReconnect]
  split
  · rfl
  · split
    · rfl
    · rfl

/-! ## Claim C2: close ordering and the stop contract -/

/-- C2 counterexample: stop() on a ready client with one pending rejects
that pending while isReady() is still true, and leaves hello set; hello is
only cleared later by the asynchronous socket close event, so the claimed
strict ordering (isReady() false before any rejection) fails for a close
caused by stop(), and stop() itself does not set hello to null. -/
theorem c2_counterexample :
    (gwStop ⟨true, some 1, ["id1"], false, true, false, 1000, false⟩).2
      = [GwEv.rejectPending "id1" true "gateway client stopped"] ∧
    (gwStop ⟨true, some 1, ["id1"], false, true, false, 1000, false⟩).1.hello = some 1 :=
  ⟨rfl, rfl⟩

/-- C2 (amended): for a close delivered to the socket close handler, hello
is cleared first and every pending rejection then observes isReady() =
false; stop() rejects every pending with the terminal stopped error,
cancels the reconnect timer and the tick watchdog, and leaves hello
unchanged until the asynchronous close event clears it. -/
theorem c2_close_ordering_and_stop (s : GwSt) (reason : String) :
    ((gwCloseHandler s reason).2
        = (if s.readyPromise then [GwEv.rejectReady reason] else [])
          ++ s.pending.map (fun id => GwEv.rejectPending id false reason) ∧
      (gwCloseHandler s reason).1.hello = none) ∧
    ((gwStop s).1.pending = [] ∧
      (gwStop s).1.reconnectTimer = false ∧
      (gwStop s).1.tickTimer = false ∧
      (gwStop s).1.hello = s.hello ∧
      (gwStop s).2 = s.pending.map
        (fun id => GwEv.rejectPending id s.hello.isSome "gateway client stopped")) := by
  refine ⟨⟨rfl, ?_⟩, rfl, rfl, rfl, rfl, rfl⟩
  simp only [gwCloseHandler, flushPending]
  rw [scheduleReconnect_hello]

/-! ## Chat runner (ChatRunner.runChatTask, current variant with the
mandatory sessions.usage snapshots)

The gateway interactions are an environment: per-call outcomes for
sessions.usage, per-attempt outcomes for chat.send and for the terminal
event wait, Date.now() readings, Math.random() draws, and the JSON.parse
oracle used by the error classifier.  The function returns the outcome and
the trace of gateway requests it issued. -/

structure ChatRetryOptions where
  attempts : Nat
  baseDelayMs : List Nat
  jitterMs : Nat

inductive ChatTermState where
  | final
  | error
  | aborted
deriving DecidableEq, Repr

/-- A terminal chat event as the waiter resolves it. -/
structure MChatEvent where
  runId : String
  state : ChatTermState
  message : Option JsValue
  errorMessage : Option (List Char)

inductive WaitOutcome where
  | timeout
  | event (e : MChatEvent)

inductive GwReq where
  | sessionsUsage
  | chatSend (sessionKey : String) (message : String) (idempotencyKey : String) (timeoutMs : Nat)
  | chatAbort (sessionKey : String) (runId : String)
deriving DecidableEq, Repr

structure RunEnv where
  preUsage : Nat → Option Unit
  postUsage : Nat → Nat → Option Unit
  send : Nat → Except (List Char) JsValue
  wait : Nat → WaitOutcome
  elapsedAtLoop : Nat → Nat
  elapsedAfterWait : Nat → Nat
  rand : Nat → ℚ
  jsonParse : List Char → Option JsValue

structure ChatTaskInput where
  taskId : String
  sessionKey : String
  messageText : String
  timeoutMs : Nat

inductive ChatOutcome where
  | reply (runId : String)
  | noReply (runId : String)
  | error (code : String) (runId : Option String)
deriving DecidableEq, Repr

/-- composeMessageWithUploadedFiles: append one File-uploaded line per
staged path below the (trimmed) message text. -/
def composeMessageWithUploadedFiles (messageText : String) (uploadedPaths : List String) : String :=
  if uploadedPaths.isEmpty then messageText
  else
    let suffix := String.intercalate "\n" (uploadedPaths.map (fun p => "File uploaded to: " ++ p))
    let text := String.mk (jsTrim messageText.toList)
    if text = "" then suffix else text ++ "\n" ++ suffix

/-- extractRunId: the runId property of the chat.send payload when it is a
nonempty string. -/
def extractRunId (payload : JsValue) : Option String :=
  match jsGet payload ("runId".toList) with
  | some (.str s) => if 0 < s.length then some (String.mk s) else none
  | _ => none

/-- One pass of the collectSessionsUsageStats retry loop: call
sessions.usage, keep a plain-object payload, otherwise retry.  The oracle
gives the outcome of the k-th call; the trace lists the issued calls. -/
def collectStatsAux (oracle : Nat → Option Unit) : Nat → Nat → Option Unit × List GwReq
  | _, 0 => (none, [])
  | k, fuel + 1 =>
    match oracle k with
    | some u => (some u, [GwReq.sessionsUsage])
    | none =>
      let rest := collectStatsAux oracle (k + 1) fuel
      (rest.1, GwReq.sessionsUsage :: rest.2)

/-- collectSessionsUsageStats with the attempts normalization
Math.max(1, Math.min(3, Math.trunc _)). -/
def collectSessionsUsageStats (oracle : Nat → Option Unit) (attempts : Nat) :
    Option Unit × List GwReq :=
  collectStatsAux oracle 1 (max 1 (min 3 attempts))

/-- The for-loop of runChatTask, one constructor of fuel per remaining
attempt.  Each iteration recomputes the remaining budget, issues
chat.send with idempotencyKey = input.taskId, and on the terminal event
collects the outgoing usage snapshot before inspecting the state. -/
def runLoop (cfg : ChatRetryOptions) (env : RunEnv) (input : ChatTaskInput)
    (messageText : String) : Nat → Nat → ChatOutcome × List GwReq
  | _, 0 => (.error "GATEWAY_ERROR" none, [])
  | attempt, fuel + 1 =>
    let remainingMs := input.timeoutMs - env.elapsedAtLoop attempt
    if remainingMs < 300 then (.error "GATEWAY_TIMEOUT" none, [])
    else
      let sendReq := GwReq.chatSend input.sessionKey messageText input.taskId remainingMs
      match env.send attempt with
      | .error _ =>
        let backoffMs := computeBackoffMs cfg.baseDelayMs (attempt - 1) cfg.jitterMs (env.rand attempt)
        if attempt < cfg.attempts ∧ backoffMs + 1000 < remainingMs then
          let rest := runLoop cfg env input messageText (attempt + 1) fuel
          (rest.1, sendReq :: rest.2)
        else (.error "GATEWAY_ERROR" none, [sendReq])
      | .ok payload =>
        match extractRunId payload with
        | none => (.error "NO_RUN_ID" none, [sendReq])
        | some runId =>
          match env.wait attempt with
          | .timeout =>
            let abortReq := GwReq.chatAbort input.sessionKey runId
            let remaining2 := input.timeoutMs - env.elapsedAfterWait attempt
            let backoffMs := computeBackoffMs cfg.baseDelayMs (attempt - 1) cfg.jitterMs (env.rand attempt)
            if attempt < cfg.attempts ∧ backoffMs + 1000 < remaining2 then
              let rest := runLoop cfg env input messageText (attempt + 1) fuel
              (rest.1, sendReq :: abortReq :: rest.2)
            else (.error "GATEWAY_TIMEOUT" (some runId), [sendReq, abortReq])
          | .event e =>
            let post := collectSessionsUsageStats (env.postUsage attempt) 3
            match post.1 with
            | none => (.error "USAGE_REQUIRED" (some runId), sendReq :: post.2)
            | some _ =>
              match e.state with
              | .final =>
                match e.message with
                | some _ => (.reply runId, sendReq :: post.2)
                | none => (.noReply runId, sendReq :: post.2)
              | .aborted => (.error "ABORTED" (some runId), sendReq :: post.2)
              | .error =>
                let gmsg := e.errorMessage.getD ("Chat error".toList)
                let cls := classifyRetryableGatewayError env.jsonParse gmsg
                let backoffMs := computeBackoffMs cfg.baseDelayMs (attempt - 1) cfg.jitterMs (env.rand attempt)
                if cls.1 = true ∧ attempt < cfg.attempts ∧ backoffMs + 1000 < remainingMs then
                  let rest := runLoop cfg env input messageText (attempt + 1) fuel
                  (rest.1, sendReq :: post.2 ++ rest.2)
                else (.error "GATEWAY_ERROR" (some runId), sendReq :: post.2)

/-- ChatRunner.runChatTask: compose the outgoing text, take the required
incoming usage snapshot (USAGE_REQUIRED without any chat.send when it
cannot be produced), then run the attempt loop.  resolvedText is the
result of the external transcription pre-flight and uploadedPaths the
staged file paths. -/
def runChatTask (cfg : ChatRetryOptions) (env : RunEnv) (input : ChatTaskInput)
    (resolvedText : String) (uploadedPaths : List String) : ChatOutcome × List GwReq :=
  let messageText := composeMessageWithUploadedFiles resolvedText uploadedPaths
  let pre := collectSessionsUsageStats env.preUsage 3
  match pre.1 with
  | none => (.error "USAGE_REQUIRED" none, pre.2)
  | some _ =>
    let rest := runLoop cfg env input messageText 1 cfg.attempts
    (rest.1, pre.2 ++ rest.2)

/-- The message processor hands the inbound messageId to the runner as the
task id (createMessageProcessor, chat branch). -/
structure InboundChatMsg where
  messageId : String
  sessionKey : String
  messageText : String

def processorChatInput (timeoutMs : Nat) (m : InboundChatMsg) : ChatTaskInput :=
  ⟨m.messageId, m.sessionKey, m.messageText, timeoutMs⟩

def isChatSend : GwReq → Bool
  | .chatSend _ _ _ _ => true
  | _ => false

def gwReqIdemKey : GwReq → Option String
  | .chatSend _ _ k _ => some k
  | _ => none

theorem collectStatsAux_not_chatSend (oracle : Nat → Option Unit) :
    ∀ (fuel k : Nat), ∀ r ∈ (collectStatsAux oracle k fuel).2, isChatSend r = false := by
  intro fuel
  induction fuel with
  | zero => intro k r hr; simp [collectStatsAux] at hr
  | succ n ih =>
    intro k r hr
    rw [collectStatsAux] at hr
    cases ho : oracle k with
    | some u =>
      rw [ho] at hr
      simp only [List.mem_singleton] at hr
      subst hr
      rfl
    | none =>
      rw [ho] at hr
      simp only [List.mem_cons] at hr
      rcases hr with hr | hr
      · subst hr; rfl
      · exact ih (k + 1) r hr

theorem collectUsage_not_chatSend (oracle : Nat → Option Unit) (attempts : Nat) :
    ∀ r ∈ (collectSessionsUsageStats oracle attempts).2, isChatSend r = false := by
  intro r hr
  rw [collectSessionsUsageStats] at hr
  exact collectStatsAux_not_chatSend oracle _ 1 r hr

/-! ## Claim C1: mandatory pre-send usage snapshot -/

/-- C1: when the pre-send sessions.usage snapshot cannot be produced,
runChatTask returns error USAGE_REQUIRED and no chat.send request appears
in the gateway trace of that call. -/
theorem c1_usage_required (cfg : ChatRetryOptions) (env : RunEnv) (input : ChatTaskInput)
    (resolvedText : String) (uploadedPaths : List String)
    (h : (collectSessionsUsageStats env.preUsage 3).1 = none) :
    (runChatTask cfg env input resolvedText uploadedPaths).1
        = .error "USAGE_REQUIRED" none ∧
    ((runChatTask cfg env input resolvedText uploadedPaths).2).filter isChatSend = [] := by
  constructor
  · simp only [runChatTask, h]
  · simp only [runChatTask, h]
    refine List.filter_eq_nil.mpr ?_
    intro a ha
    have hx := collectUsage_not_chatSend env.preUsage 3 a ha
    simp [hx]

/-- C1 witness: a concrete environment whose sessions.usage calls all fail
makes runChatTask return USAGE_REQUIRED with a chat-send-free trace. -/
theorem c1_usage_required_witness :
    (collectSessionsUsageStats (RunEnv.preUsage ⟨fun _ => none, fun _ _ => some (),
        fun _ => .ok .null, fun _ => .timeout, fun _ => 0, fun _ => 0, fun _ => 0,
        fun _ => none⟩) 3).1 = none ∧
    (runChatTask ⟨3, [300, 800, 1500], 250⟩ ⟨fun _ => none, fun _ _ => some (),
        fun _ => .ok .null, fun _ => .timeout, fun _ => 0, fun _ => 0, fun _ => 0,
        fun _ => none⟩ ⟨"m1", "s1", "hi", 60000⟩ "hi" []).1
      = .error "USAGE_REQUIRED" none ∧
    ((runChatTask ⟨3, [300, 800, 1500], 250⟩ ⟨fun _ => none, fun _ _ => some (),
        fun _ => .ok .null, fun _ => .timeout, fun _ => 0, fun _ => 0, fun _ => 0,
        fun _ => none⟩ ⟨"m1", "s1", "hi", 60000⟩ "hi" []).2).filter isChatSend = [] := by
  refine ⟨rfl, ?_, ?_⟩
  · exact (c1_usage_required ⟨3, [300, 800, 1500], 250⟩ ⟨fun _ => none, fun _ _ => some (),
      fun _ => .ok .null, fun _ => .timeout, fun _ => 0, fun _ => 0, fun _ => 0,
      fun _ => none⟩ ⟨"m1", "s1", "hi", 60000⟩ "hi" [] rfl).1
  · exact (c1_usage_required ⟨3, [300, 800, 1500], 250⟩ ⟨fun _ => none, fun _ _ => some (),
      fun _ => .ok .null, fun _ => .timeout, fun _ => 0, fun _ => 0, fun _ => 0,
      fun _ => none⟩ ⟨"m1", "s1", "hi", 60000⟩ "hi" [] rfl).2

/-! ## Claim C8: stable idempotency key across retries -/

theorem runLoop_idemKey (cfg : ChatRetryOptions) (env : RunEnv) (input : ChatTaskInput)
    (messageText : String) :
    ∀ (fuel attempt : Nat), ∀ r ∈ (runLoop cfg env input messageText attempt fuel).2,
      isChatSend r = true → gwReqIdemKey r = some input.taskId := by
  intro fuel
  induction fuel with
  | zero =>
    intro attempt r hr _
    simp [runLoop] at hr
  | succ n ih =>
    intro attempt r hr hsend
    rw [runLoop] at hr
    by_cases h300 : input.timeoutMs - env.elapsedAtLoop attempt < 300
    · rw [if_pos h300] at hr
      simp at hr
    · rw [if_neg h300] at hr
      cases hs : env.send attempt with
      | error msg =>
        simp only [hs] at hr
        split at hr
        · simp only [List.mem_cons] at hr
          rcases hr with rfl | hr
          · rfl
          · exact ih (attempt + 1) r hr hsend
        · simp only [List.mem_singleton] at hr
          subst hr
          rfl
      | ok payload =>
        simp only [hs] at hr
        cases hrid : extractRunId payload with
        | none =>
          simp only [hrid, List.mem_singleton] at hr
          subst hr
          rfl
        | some runId =>
          simp only [hrid] at hr
          cases hw : env.wait attempt with
          | timeout =>
            simp only [hw] at hr
            split at hr
            · simp only [List.mem_cons] at hr
              rcases hr with rfl | rfl | hr
              · rfl
              · rw [show isChatSend (GwReq.chatAbort input.sessionKey runId) = false from rfl]
                  at hsend
                exact Bool.noConfusion hsend
              · exact ih (attempt + 1) r hr hsend
            · simp only [List.mem_cons, List.not_mem_nil, or_false] at hr
              rcases hr with rfl | rfl
              · rfl
              · rw [show isChatSend (GwReq.chatAbort input.sessionKey runId) = false from rfl]
                  at hsend
                exact Bool.noConfusion hsend
          | event e =>
            simp only [hw] at hr
            cases hpost : (collectSessionsUsageStats (env.postUsage attempt) 3).1 with
            | none =>
              simp only [hpost, List.mem_cons] at hr
              rcases hr with rfl | hr
              · rfl
              · have hx := collectUsage_not_chatSend (env.postUsage attempt) 3 r hr
                rw [hx] at hsend
                exact Bool.noConfusion hsend
            | some u =>
              simp only [hpost] at hr
              cases hstate : e.state with
              | final =>
                simp only [hstate] at hr
                cases hm : e.message with
                | some msg =>
                  simp only [hm, List.mem_cons] at hr
                  rcases hr with rfl | hr
                  · rfl
                  · have hx := collectUsage_not_chatSend (env.postUsage attempt) 3 r hr
                    rw [hx] at hsend
                    exact Bool.noConfusion hsend
                | none =>
                  simp only [hm, List.mem_cons] at hr
                  rcases hr with rfl | hr
                  · rfl
                  · have hx := collectUsage_not_chatSend (env.postUsage attempt) 3 r hr
                    rw [hx] at hsend
                    exact Bool.noConfusion hsend
              | aborted =>
                simp only [hstate, List.mem_cons] at hr
                rcases hr with rfl | hr
                · rfl
                · have hx := collectUsage_not_chatSend (env.postUsage attempt) 3 r hr
                  rw [hx] at hsend
                  exact Bool.noConfusion hsend
              | error =>
                simp only [hstate] at hr
                split at hr
                · simp only [List.mem_cons, List.mem_append] at hr
                  rcases hr with (rfl | hr) | hr
                  · rfl
                  · have hx := collectUsage_not_chatSend (env.postUsage attempt) 3 r hr
                    rw [hx] at hsend
                    exact Bool.noConfusion hsend
                  · exact ih (attempt + 1) r hr hsend
                · simp only [List.mem_cons] at hr
                  rcases hr with rfl | hr
                  · rfl
                  · have hx := collectUsage_not_chatSend (env.postUsage attempt) 3 r hr
                    rw [hx] at hsend
                    exact Bool.noConfusion hsend

/-- C8: every chat.send issued during runChatTask for an inbound message,
across all retry attempts, carries the same idempotencyKey, equal to the
inbound messageId handed to the runner as the task id. -/
theorem c8_idempotency_key (cfg : ChatRetryOptions) (env : RunEnv) (timeoutMs : Nat)
    (m : InboundChatMsg) (resolvedText : String) (uploadedPaths : List String) :
    ∀ r ∈ (runChatTask cfg env (processorChatInput timeoutMs m) resolvedText uploadedPaths).2,
      isChatSend r = true → gwReqIdemKey r = some m.messageId := by
  intro r hr hsend
  simp only [runChatTask] at hr
  cases hpre : (collectSessionsUsageStats env.preUsage 3).1 with
  | none =>
    simp only [hpre] at hr
    have hx := collectUsage_not_chatSend env.preUsage 3 r hr
    rw [hx] at hsend
    exact Bool.noConfusion hsend
  | some u =>
    simp only [hpre, List.mem_append] at hr
    rcases hr with hr | hr
    · have hx := collectUsage_not_chatSend env.preUsage 3 r hr
      rw [hx] at hsend
      exact Bool.noConfusion hsend
    · have hkey := runLoop_idemKey cfg env (processorChatInput timeoutMs m)
        (composeMessageWithUploadedFiles resolvedText uploadedPaths) cfg.attempts 1 r hr hsend
      simpa [processorChatInput] using hkey

/-- C8 witness: a run that succeeds on the first attempt issues exactly
one chat.send and its idempotency key is the inbound messageId. -/
theorem c8_idempotency_key_witness :
    gwReqIdemKey (GwReq.chatSend "s1" "hi" "m1" 60000) = some "m1" := by
  have htrace : (runChatTask ⟨3, [300, 800, 1500], 250⟩ ⟨fun _ => some (), fun _ _ => some (),
      fun _ => .ok (.obj [(("runId".toList), .str ("r1".toList))]),
      fun _ => .event ⟨"r1", .final, some (.str ("ok".toList)), none⟩,
      fun _ => 0, fun _ => 0, fun _ => 0, fun _ => none⟩
      (processorChatInput 60000 ⟨"m1", "s1", "hi"⟩) "hi" []).2
      = [GwReq.sessionsUsage, GwReq.chatSend "s1" "hi" "m1" 60000, GwReq.sessionsUsage] := rfl
  exact c8_idempotency_key ⟨3, [300, 800, 1500], 250⟩ ⟨fun _ => some (), fun _ _ => some (),
      fun _ => .ok (.obj [(("runId".toList), .str ("r1".toList))]),
      fun _ => .event ⟨"r1", .final, some (.str ("ok".toList)), none⟩,
      fun _ => 0, fun _ => 0, fun _ => 0, fun _ => none⟩ 60000 ⟨"m1", "s1", "hi"⟩ "hi" []
    (GwReq.chatSend "s1" "hi" "m1" 60000) (by rw [htrace]; simp) rfl
